import Mathlib

/-!
# Verification of the Classroom Activity Monitoring System pipeline

Shallow embedding of `Backend/codebase/fastapi_app/main.py`:
the connection manager (observer registry), the Kafka consumer loop,
the `/recent` query and the startup/shutdown lifecycle hooks.
-/

namespace CAMS

/-- A structured (JSON-like) value carried in a broker message payload. -/
inductive Val where
  | null
  | str (s : String)
  | num (n : Int)
deriving DecidableEq, Repr

/-- A deserialized message payload: the Python dict produced by
`json.loads`, modelled as an insertion-ordered association list.
A dict produced by `json.loads` has pairwise-distinct keys. -/
abbrev EventData := List (String × Val)

/-- Python `d[k]` / `d.get(k)` lookup: the value at the first (and, for
a genuine dict, only) occurrence of key `k`, if present. -/
def dictGet : EventData → String → Option Val
  | [], _ => none
  | p :: rest, k => if p.1 = k then some p.2 else dictGet rest k

/-- One step of Python dict construction: inserting the pair `kv` into
dict `d` overwrites the value in place if the key is present, otherwise
appends the pair at the end. -/
def dictInsert (d : EventData) (kv : String × Val) : EventData :=
  if d.any (fun p => p.1 = kv.1) then
    d.map (fun p => if p.1 = kv.1 then (p.1, kv.2) else p)
  else d ++ [kv]

/-- The broadcast payload built in the consumer loop:
`{"type": "ALERT", **data}` — a dict literal starting from the single
entry `"type" ↦ "ALERT"` into which the pairs of `data` are merged,
in order, with Python dict-update semantics. -/
def mergePayload (data : EventData) : EventData :=
  data.foldl dictInsert [("type", Val.str "ALERT")]

/-- The argument tuple passed to the `INSERT INTO activity` statement:
each field is looked up with the defaulting `data.get(...)`, so a missing
field yields `none` (SQL `NULL`), never an error. -/
structure InsertArgs where
  student_id : Option Val
  status : Option Val
  confidence : Option Val
  timestamp : Option Val
deriving DecidableEq, Repr

/-- `(data.get('student_id'), data.get('status'), data.get('confidence'),
data.get('timestamp'))` — the values bound to `$1..$4` of the insert. -/
def insertArgs (data : EventData) : InsertArgs :=
  { student_id := dictGet data "student_id"
    status := dictGet data "status"
    confidence := dictGet data "confidence"
    timestamp := dictGet data "timestamp" }

/-- An observable action of the consumer loop: a row insert into the
store (with the argument tuple it passes), or a broadcast of a payload
to the connection manager. -/
inductive Action where
  | write (args : InsertArgs)
  | send (payload : EventData)
deriving DecidableEq, Repr

/-- The body of `kafka_consumer_task` as a function from the stream of
broker messages to the sequence of store/broadcast actions it performs.
A raw message is `some data` when `json.loads` succeeds and `none` when
it raises. The `value_deserializer` runs inside the `async for`
iteration and no handler in `kafka_consumer_task` catches its exception,
so a malformed message terminates the iteration (and the task): no
further message is processed. A successfully deserialized message is
first persisted, then broadcast as `{"type":"ALERT", **data}`. -/
def kafka_consumer_task : List (Option EventData) → List Action
  | [] => []
  | none :: _ => []
  | some data :: rest =>
      .write (insertArgs data) :: .send (mergePayload data) :: kafka_consumer_task rest

/-! ## ConnectionManager -/

/-- A websocket connection, identified by its handle. -/
abbrev Conn := Nat

/-- `ConnectionManager.connect`: after the transport accept, the
connection is appended to `self.active` unconditionally. -/
def connect (active : List Conn) (c : Conn) : List Conn :=
  active ++ [c]

/-- `ConnectionManager.disconnect`: `if websocket in self.active:
self.active.remove(websocket)` — removes the first occurrence when
present, otherwise leaves the list unchanged. -/
def disconnect (active : List Conn) (c : Conn) : List Conn :=
  if c ∈ active then active.erase c else active

/-- The first loop of `ConnectionManager.broadcast`: iterate over
`self.active` in order, attempt `send_text` on each connection, catching
a failure per connection. Returns the connections whose send succeeded
(they received the message) and, separately, the `to_remove` list of
connections whose send raised, each in iteration order. `fails c = true`
models `connection.send_text` raising on `c`. -/
def sendPass (fails : Conn → Bool) : List Conn → List Conn × List Conn
  | [] => ([], [])
  | c :: rest =>
      let r := sendPass fails rest
      if fails c then (r.1, c :: r.2) else (c :: r.1, r.2)

/-- `ConnectionManager.broadcast`: run the send pass over the whole of
`active`, then — only after the pass completes — disconnect each
connection collected in `to_remove`, in order. Returns the connections
that received the message and the registry left for the next broadcast. -/
def broadcast (fails : Conn → Bool) (active : List Conn) :
    List Conn × List Conn :=
  let pass := sendPass fails active
  (pass.1, pass.2.foldl (fun a c => disconnect a c) active)

/-! ## Persistence sink: the `/recent` query -/

/-- A row of the `activity` table. Every column is nullable (the insert
passes `NULL` for a missing field); `ts` is the absolute timestamp. -/
structure ActivityRow where
  student_id : Option Val
  status : Option Val
  confidence : Option Val
  ts : Option Int
deriving DecidableEq, Repr

/-- Comparison of `ts` column values under `ORDER BY ts DESC`: `tsGe a b`
holds when `a` sorts no later than `b`, i.e. `a`'s timestamp is at least
`b`'s. A `NULL` timestamp sorts as largest (PostgreSQL default
`NULLS FIRST` for descending order). -/
def tsGe (a b : Option Int) : Bool :=
  match a, b with
  | none, _ => true
  | some _, none => false
  | some x, some y => y ≤ x

/-- The `ORDER BY ts DESC` row comparison. -/
def tsDesc (a b : ActivityRow) : Prop :=
  tsGe a.ts b.ts = true

instance : DecidableRel tsDesc := fun a b =>
  inferInstanceAs (Decidable (tsGe a.ts b.ts = true))

lemma tsGe_total (a b : Option Int) : tsGe a b = true ∨ tsGe b a = true := by
  cases a with
  | none => exact Or.inl rfl
  | some x =>
    cases b with
    | none => exact Or.inr rfl
    | some y =>
      rcases Int.le_total x y with h | h
      · exact Or.inr (by simpa [tsGe] using h)
      · exact Or.inl (by simpa [tsGe] using h)

lemma tsGe_trans (a b c : Option Int) (h1 : tsGe a b = true)
    (h2 : tsGe b c = true) : tsGe a c = true := by
  cases a with
  | none => rfl
  | some x =>
    cases b with
    | none => simp [tsGe] at h1
    | some y =>
      cases c with
      | none => simp [tsGe] at h2
      | some z =>
        simp [tsGe] at h1 h2 ⊢
        exact le_trans h2 h1

instance : IsTotal ActivityRow tsDesc :=
  ⟨fun a b => tsGe_total a.ts b.ts⟩

instance : IsTrans ActivityRow tsDesc :=
  ⟨fun _ _ _ h1 h2 => tsGe_trans _ _ _ h1 h2⟩

/-- The `/recent` endpoint:
`SELECT student_id, status, confidence, ts FROM activity
ORDER BY ts DESC LIMIT 20` over the current table contents. -/
def recent (tbl : List ActivityRow) : List ActivityRow :=
  (List.insertionSort tsDesc tbl).take 20

/-! ## Lifecycle hooks -/

/-- One step performed by the `startup` / `shutdown` event hooks. -/
inductive LifecycleAction where
  | createPool (minSize maxSize : Nat)
  | launchConsumerTask
  | cancelConsumerTask
  | awaitConsumerTask
  | closePool
deriving DecidableEq, Repr

/-- The `startup` hook, line by line:
`app.state.db = await asyncpg.create_pool(PG_DSN, min_size=1, max_size=5)`
then `app.state.kafka_task = asyncio.create_task(kafka_consumer_task())`. -/
def startup : List LifecycleAction :=
  [.createPool 1 5, .launchConsumerTask]

/-- The `shutdown` hook, line by line:
`app.state.kafka_task.cancel()` then `await app.state.db.close()`.
`Task.cancel()` only requests cancellation; the hook never awaits the
task, so no `awaitConsumerTask` step occurs. -/
def shutdown : List LifecycleAction :=
  [.cancelConsumerTask, .closePool]

/-! ## Pool handle and sample data -/

/-- The pool handle stored in `app.state.db` at startup: a single pool
with `min_size=1, max_size=5`, read back by both the consumer's write
path and the `/recent` read path. -/
structure PoolConfig where
  minSize : Nat
  maxSize : Nat
deriving DecidableEq, Repr

/-- The value assigned to `app.state.db` by the `startup` hook. -/
def appStateDb : PoolConfig := { minSize := 1, maxSize := 5 }

/-- The pool the consumer's insert acquires from
(`async with app.state.db.acquire()` in `kafka_consumer_task`). -/
def writePathPool : PoolConfig := appStateDb

/-- The pool the `/recent` handler acquires from
(`async with app.state.db.acquire()` in `recent`). -/
def readPathPool : PoolConfig := appStateDb

/-- A sample valid payload arriving before the malformed message. -/
def sampleEvA : EventData :=
  [("student_id", Val.str "S1"), ("status", Val.str "focused"),
   ("confidence", Val.num 1), ("timestamp", Val.num 1700000000)]

/-- A sample valid payload arriving after the malformed message. -/
def sampleEvB : EventData :=
  [("student_id", Val.str "S2"), ("status", Val.str "distracted"),
   ("confidence", Val.num 0), ("timestamp", Val.num 1700000001)]

/-- A sample activity row whose timestamp is `i`. -/
def sampleRow (i : Nat) : ActivityRow :=
  { student_id := some (Val.num i), status := some (Val.str "focused"),
    confidence := some (Val.num 1), ts := some (i : Int) }

/-- A table of 25 rows with timestamps `0, 1, ..., 24`. -/
def sample25 : List ActivityRow := (List.range 25).map sampleRow

/-- The 20 most recent rows of `sample25`: timestamps `24, 23, ..., 5`. -/
def expected20 : List ActivityRow :=
  (List.range 20).map (fun i => sampleRow (24 - i))

/-! ## Claim C1: handling of a malformed message -/

/-- C1: the claim says a malformed message is skipped and processing
continues, so a malformed message between two valid ones prevents
neither from being persisted and broadcast. The code has no handler for
the deserializer's exception: on the stream valid·malformed·valid the
consumer processes only the first message and the second valid message
is neither written nor broadcast — the consumer loop stops. -/
theorem C1_malformed_message_aborts_consumer_loop :
    kafka_consumer_task [some sampleEvA, none, some sampleEvB] =
      [Action.write (insertArgs sampleEvA), Action.send (mergePayload sampleEvA)] ∧
    Action.write (insertArgs sampleEvB) ∉
      kafka_consumer_task [some sampleEvA, none, some sampleEvB] ∧
    Action.send (mergePayload sampleEvB) ∉
      kafka_consumer_task [some sampleEvA, none, some sampleEvB] := by
  refine ⟨rfl, ?_, ?_⟩ <;> decide

/-! ## Claim C2: broadcast isolates per-connection failures -/

lemma sendPass_fst (fails : Conn → Bool) (l : List Conn) :
    (sendPass fails l).1 = l.filter (fun c => !(fails c)) := by
  induction l with
  | nil => rfl
  | cons c rest ih =>
    by_cases hc : fails c = true
    · simp [sendPass, hc, List.filter_cons, ih]
    · have hc' : fails c = false := by simpa using hc
      simp [sendPass, hc', List.filter_cons, ih]

lemma sendPass_snd (fails : Conn → Bool) (l : List Conn) :
    (sendPass fails l).2 = l.filter fails := by
  induction l with
  | nil => rfl
  | cons c rest ih =>
    by_cases hc : fails c = true
    · simp [sendPass, hc, List.filter_cons, ih]
    · have hc' : fails c = false := by simpa using hc
      simp [sendPass, hc', List.filter_cons, ih]

lemma disconnect_cons_of_ne (t : List Conn) (a c : Conn) (h : a ≠ c) :
    disconnect (c :: t) a = c :: disconnect t a := by
  by_cases ht : a ∈ t
  · have hmem : a ∈ c :: t := List.mem_cons_of_mem _ ht
    have herase : (c :: t).erase a = c :: t.erase a := by
      simp [List.erase_cons, (Ne.symm h)]
    simp [disconnect, hmem, ht, herase]
  · have hmem : a ∉ c :: t := by simp [List.mem_cons, h, ht]
    simp [disconnect, hmem, ht]

lemma foldl_disconnect_cons (fails : Conn → Bool) (rem : List Conn) (c : Conn)
    (hc : fails c = false) (hrem : ∀ a ∈ rem, fails a = true) (t : List Conn) :
    List.foldl (fun a x => disconnect a x) (c :: t) rem =
      c :: List.foldl (fun a x => disconnect a x) t rem := by
  induction rem generalizing t with
  | nil => rfl
  | cons a rem' ih =>
    have ha : fails a = true := hrem a (List.mem_cons_self a rem')
    have hne : a ≠ c := fun h => by rw [h, hc] at ha; exact Bool.false_ne_true ha
    rw [List.foldl_cons, List.foldl_cons, disconnect_cons_of_ne t a c hne]
    exact ih (fun x hx => hrem x (List.mem_cons_of_mem _ hx)) _

lemma foldl_disconnect_filter (fails : Conn → Bool) (l : List Conn) :
    List.foldl (fun a x => disconnect a x) l (l.filter fails) =
      l.filter (fun c => !(fails c)) := by
  induction l with
  | nil => rfl
  | cons c t ih =>
    by_cases hc : fails c = true
    · have h1 : disconnect (c :: t) c = t := by
        simp [disconnect, List.erase_cons]
      simp only [List.filter_cons, hc, if_pos, List.foldl_cons, h1, ih,
        Bool.not_true, cond_true]
      simp [hc]
    · have hc' : fails c = false := by simpa using hc
      have hrem : ∀ a ∈ t.filter fails, fails a = true := fun a ha =>
        List.of_mem_filter ha
      have hfilter1 : (c :: t).filter fails = t.filter fails := by
        simp [List.filter_cons, hc']
      have hfilter2 : (c :: t).filter (fun x => !(fails x)) =
          c :: t.filter (fun x => !(fails x)) := by
        simp [List.filter_cons, hc']
      rw [hfilter1, hfilter2,
        foldl_disconnect_cons fails (t.filter fails) c hc' hrem t, ih]

/-- C2: `broadcast` attempts a send on every registered connection —
each connection lands either in the delivered list or in the collected
failure list, a failure on one connection never aborting the rest of the
pass; the delivered list is exactly the non-failing connections in
registry order; and the registry left behind (failures removed only
after the pass over all of `active` completes) is exactly the
non-failing connections, so the next broadcast sees no failed
connection while every other connection received the message. -/
theorem C2_broadcast_isolates_failures (fails : Conn → Bool) (active : List Conn) :
    (broadcast fails active).1 = active.filter (fun c => !(fails c)) ∧
    (sendPass fails active).2 = active.filter fails ∧
    (∀ c ∈ active, c ∈ (broadcast fails active).1 ∨ c ∈ (sendPass fails active).2) ∧
    (broadcast fails active).2 = active.filter (fun c => !(fails c)) := by
  refine ⟨sendPass_fst fails active, sendPass_snd fails active, ?_, ?_⟩
  · intro c hc
    by_cases hf : fails c = true
    · exact Or.inr (by rw [sendPass_snd]; exact List.mem_filter_of_mem hc hf)
    · have hf' : (!(fails c)) = true := by simp [Bool.not_eq_true'] at hf ⊢; exact hf
      exact Or.inl (by
        show c ∈ (broadcast fails active).1
        rw [show (broadcast fails active).1 = (sendPass fails active).1 from rfl,
          sendPass_fst]
        exact List.mem_filter_of_mem hc hf')
  · show List.foldl (fun a x => disconnect a x) active (sendPass fails active).2 =
      active.filter (fun c => !(fails c))
    rw [sendPass_snd]
    exact foldl_disconnect_filter fails active

/-! ## Claim C3: write precedes broadcast for the same message -/

/-- C3: whenever the consumer trace broadcasts a payload at position
`i`, some earlier position `j < i` holds the row insert of the very
message that payload was built from — an event is never broadcast
before its insert has completed. -/
theorem C3_write_precedes_broadcast (msgs : List (Option EventData)) (i : Nat)
    (p : EventData)
    (h : (kafka_consumer_task msgs)[i]? = some (Action.send p)) :
    ∃ j data, j < i ∧
      (kafka_consumer_task msgs)[j]? = some (Action.write (insertArgs data)) ∧
      p = mergePayload data := by
  induction msgs generalizing i with
  | nil => simp [kafka_consumer_task] at h
  | cons m rest ih =>
    cases m with
    | none => simp [kafka_consumer_task] at h
    | some data =>
      match i with
      | 0 => simp [kafka_consumer_task] at h
      | 1 =>
        refine ⟨0, data, Nat.zero_lt_one, rfl, ?_⟩
        have : Action.send (mergePayload data) = Action.send p := by
          simpa [kafka_consumer_task] using h
        exact (Action.send.inj this).symm
      | Nat.succ (Nat.succ k) =>
        have h' : (kafka_consumer_task rest)[k]? = some (Action.send p) := by
          simpa [kafka_consumer_task] using h
        obtain ⟨j, d, hj, hget, hp⟩ := ih k h'
        exact ⟨j + 2, d, by omega, by simpa [kafka_consumer_task] using hget, hp⟩

/-- Witness for `C3_write_precedes_broadcast` on the single-message
stream `[some sampleEvA]` at the broadcast position `i = 1`. -/
theorem C3_write_precedes_broadcast_witness :
    ∃ j data, j < 1 ∧
      (kafka_consumer_task [some sampleEvA])[j]? =
        some (Action.write (insertArgs data)) ∧
      mergePayload sampleEvA = mergePayload data :=
  C3_write_precedes_broadcast [some sampleEvA] 1 (mergePayload sampleEvA) rfl

/-! ## Claim C4: shutdown ordering -/

/-- C4: the claim says shutdown signals cancellation, awaits the
consumer task's termination, and only then closes the pool. The
`shutdown` hook performs exactly `cancel` followed by `closePool`: it
never awaits the task, so the pool is released without waiting for the
consumer to stop using it. -/
theorem C4_shutdown_never_awaits_consumer :
    shutdown = [LifecycleAction.cancelConsumerTask, LifecycleAction.closePool] ∧
    LifecycleAction.awaitConsumerTask ∉ shutdown := by
  exact ⟨rfl, by decide⟩

/-! ## Claim C5: register must not duplicate -/

/-- C5 counterexample: registering a connection that is already present
does add it a second time — starting from the registry `[0]`, `connect`
of `0` yields `[0, 0]`, which contains a duplicate. -/
theorem C5_counterexample_register_duplicates :
    connect [0] 0 = [0, 0] ∧ ¬ (connect [0] 0).Nodup := by
  exact ⟨rfl, by decide⟩

/-- C5 amended: `connect` appends the connection unconditionally, so
registering an already-present connection adds a second occurrence;
the registry stays duplicate-free only when the connection was not
already present (as is the case for the endpoint's call pattern, which
registers each accepted connection exactly once). -/
theorem C5_register_nodup_of_fresh (active : List Conn) (c : Conn)
    (hnd : active.Nodup) (hc : c ∉ active) :
    (connect active c).Nodup := by
  simpa [connect, List.nodup_append] using ⟨hnd, hc⟩

/-- Witness for `C5_register_nodup_of_fresh` at `active = [1]`, `c = 0`. -/
theorem C5_register_nodup_of_fresh_witness :
    ([1] : List Conn).Nodup ∧ (0 : Conn) ∉ ([1] : List Conn) ∧
    (connect [1] 0).Nodup :=
  ⟨by decide, by decide, C5_register_nodup_of_fresh [1] 0 (by decide) (by decide)⟩

/-! ## Claim C7: unregister idempotence -/

/-- C7 counterexample: on the registry `[0, 0]` (reachable, since
`connect` appends unconditionally), unregistering `0` twice gives `[]`
while unregistering once gives `[0]` — so unregistering twice does not
always equal unregistering once. -/
theorem C7_counterexample_double_disconnect :
    disconnect (disconnect [0, 0] 0) 0 ≠ disconnect [0, 0] 0 := by
  decide

/-- C7 amended: removing an absent connection is always a no-op that
leaves the registry unchanged (and raises no error), and on a registry
without duplicate occurrences unregistering twice has the same effect as
unregistering once. -/
theorem C7_disconnect_idempotent :
    (∀ (active : List Conn) (c : Conn), c ∉ active → disconnect active c = active) ∧
    (∀ (active : List Conn) (c : Conn), active.Nodup →
      disconnect (disconnect active c) c = disconnect active c) := by
  constructor
  · intro active c hc
    simp [disconnect, hc]
  · intro active c hnd
    by_cases hc : c ∈ active
    · have herase : c ∉ active.erase c := hnd.not_mem_erase
      simp [disconnect, hc, herase]
    · simp [disconnect, hc]

/-- Witness for `C7_disconnect_idempotent`: the absent-connection no-op
at `active = []`, `c = 5`, and double-removal at `active = [3]`, `c = 3`. -/
theorem C7_disconnect_idempotent_witness :
    disconnect [] 5 = [] ∧
    disconnect (disconnect [3] 3) 3 = disconnect [3] 3 :=
  ⟨C7_disconnect_idempotent.1 [] 5 (by decide),
   C7_disconnect_idempotent.2 [3] 3 (by decide)⟩

/-! ## Claim C8: pool bounds, creation order, sharing -/

/-- C8: the pool is bounded with `min_size = 1` and `max_size = 5`, the
`startup` hook creates it strictly before launching the consumer task,
and the write path and the recent-history read path acquire from the
same pool. -/
theorem C8_pool_bounds_order_sharing :
    appStateDb.minSize = 1 ∧ appStateDb.maxSize = 5 ∧
    startup = [LifecycleAction.createPool 1 5, LifecycleAction.launchConsumerTask] ∧
    startup.indexOf (LifecycleAction.createPool 1 5) <
      startup.indexOf LifecycleAction.launchConsumerTask ∧
    writePathPool = readPathPool := by
  refine ⟨rfl, rfl, rfl, by decide, rfl⟩

/-- Witness for `C2_broadcast_isolates_failures` with three registered
connections of which the middle one fails: the other two receive the
message and the failed one is absent from the registry afterwards. -/
theorem C2_broadcast_isolates_failures_witness :
    (broadcast (fun c => c == 1) [0, 1, 2]).1 = [0, 2] ∧
    (broadcast (fun c => c == 1) [0, 1, 2]).2 = [0, 2] := by
  have h := C2_broadcast_isolates_failures (fun c => c == 1) [0, 1, 2]
  exact ⟨h.1.trans (by decide), h.2.2.2.trans (by decide)⟩

/-! ## Claim C6: the recent-history query -/

/-- C6: `recent` on the empty table is the empty sequence (not an
error); its length is `min 20` the table size (so "up to 20 rows"); it
is ordered by timestamp descending; it is an initial segment of a
descending-sorted permutation of the whole table (so it consists of the
most recent rows); and on a concrete table of 25 rows it returns
exactly the 20 most recent, descending. -/
theorem C6_recent_returns_top20_desc :
    recent [] = [] ∧
    (∀ tbl, (recent tbl).length = min 20 tbl.length) ∧
    (∀ tbl, List.Sorted tsDesc (recent tbl)) ∧
    (∀ tbl, ∃ rest, List.Sorted tsDesc (recent tbl ++ rest) ∧
      (recent tbl ++ rest).Perm tbl) ∧
    recent sample25 = expected20 := by
  refine ⟨rfl, ?_, ?_, ?_, by decide⟩
  · intro tbl
    have hlen : (List.insertionSort tsDesc tbl).length = tbl.length :=
      (List.perm_insertionSort tsDesc tbl).length_eq
    simp [recent, List.length_take, hlen]
  · intro tbl
    exact List.Pairwise.sublist (List.take_sublist 20 _)
      (List.sorted_insertionSort tsDesc tbl)
  · intro tbl
    refine ⟨(List.insertionSort tsDesc tbl).drop 20, ?_, ?_⟩
    · rw [recent, List.take_append_drop]
      exact List.sorted_insertionSort tsDesc tbl
    · rw [recent, List.take_append_drop]
      exact List.perm_insertionSort tsDesc tbl

/-! ## Claim C9: the merged broadcast payload's `type` entry -/

lemma dictGet_map_replace (k : String) (v : Val) :
    ∀ d : EventData, d.any (fun p => p.1 = k) = true →
    dictGet (d.map (fun p => if p.1 = k then (p.1, v) else p)) k = some v := by
  intro d
  induction d with
  | nil => intro h; simp at h
  | cons p t ih =>
    intro h
    by_cases hpk : p.1 = k
    · simp [dictGet, hpk]
    · have ht : t.any (fun q => decide (q.1 = k)) = true := by
        rw [List.any_cons] at h
        simpa [hpk] using h
      simp [dictGet, hpk, ih ht]

lemma dictGet_map_replace_ne (k k' : String) (v : Val) (hne : k' ≠ k) :
    ∀ d : EventData,
    dictGet (d.map (fun p => if p.1 = k' then (p.1, v) else p)) k =
      dictGet d k := by
  intro d
  induction d with
  | nil => rfl
  | cons p t ih =>
    by_cases hp' : p.1 = k'
    · have hpk : p.1 ≠ k := by rw [hp']; exact hne
      simp [dictGet, hp', hpk, hne, ih]
    · by_cases hpk : p.1 = k
      · have hkk' : k ≠ k' := fun hh => hp' (hpk.trans hh)
        simp [dictGet, hp', hpk, hkk', ih]
      · simp [dictGet, hp', hpk, ih]

lemma dictGet_append_self (k : String) (v : Val) :
    ∀ d : EventData, d.any (fun p => p.1 = k) = false →
    dictGet (d ++ [(k, v)]) k = some v := by
  intro d
  induction d with
  | nil => intro _; simp [dictGet]
  | cons p t ih =>
    intro h
    rw [List.any_cons, Bool.or_eq_false_iff] at h
    have hpk : p.1 ≠ k := by simpa using h.1
    simp [dictGet, hpk, ih h.2]

lemma dictGet_dictInsert_self (d : EventData) (k : String) (v : Val) :
    dictGet (dictInsert d (k, v)) k = some v := by
  unfold dictInsert
  by_cases h : d.any (fun p => p.1 = (k, v).1) = true
  · simp only [h, if_true]
    exact dictGet_map_replace k v d h
  · have h' : d.any (fun p => p.1 = k) = false := Bool.eq_false_iff.mpr h
    simp only [h', Bool.false_eq_true, if_false]
    exact dictGet_append_self k v d h'

lemma dictGet_append_single_ne (k k' : String) (v : Val) (hne : k' ≠ k) :
    ∀ d : EventData, dictGet (d ++ [(k', v)]) k = dictGet d k := by
  intro d
  induction d with
  | nil => simp [dictGet, hne]
  | cons p t ih =>
    by_cases hpk : p.1 = k
    · simp [dictGet, hpk]
    · simp [dictGet, hpk, ih]

lemma dictGet_dictInsert_other (d : EventData) (k k' : String) (v : Val)
    (hne : k' ≠ k) :
    dictGet (dictInsert d (k', v)) k = dictGet d k := by
  unfold dictInsert
  by_cases h : d.any (fun p => p.1 = (k', v).1) = true
  · simp only [h, if_true]
    exact dictGet_map_replace_ne k k' v hne d
  · have h' : d.any (fun p => p.1 = k') = false := Bool.eq_false_iff.mpr h
    simp only [h', Bool.false_eq_true, if_false]
    exact dictGet_append_single_ne k k' v hne d

lemma dictGet_foldl_insert_not_mem (k : String) :
    ∀ (data : EventData) (d0 : EventData), (∀ p ∈ data, p.1 ≠ k) →
    dictGet (data.foldl dictInsert d0) k = dictGet d0 k := by
  intro data
  induction data with
  | nil => intro d0 _; rfl
  | cons q rest ih =>
    intro d0 h
    rw [List.foldl_cons,
      ih (dictInsert d0 q) (fun p hp => h p (List.mem_cons_of_mem _ hp))]
    exact dictGet_dictInsert_other d0 k q.1 q.2 (h q (List.mem_cons_self _ _))

lemma dictGet_foldl_insert (k : String) (w : Val) :
    ∀ (data : EventData) (d0 : EventData), (data.map Prod.fst).Nodup →
    dictGet d0 k = some w →
    dictGet (data.foldl dictInsert d0) k = some ((dictGet data k).getD w) := by
  intro data
  induction data with
  | nil => intro d0 _ h0; simpa [dictGet] using h0
  | cons q rest ih =>
    intro d0 hnd h0
    rw [List.map_cons, List.nodup_cons] at hnd
    obtain ⟨hq, hrest⟩ := hnd
    rw [List.foldl_cons]
    by_cases hk : q.1 = k
    · have hins : dictGet (dictInsert d0 q) k = some q.2 := by
        rw [← hk]
        exact dictGet_dictInsert_self d0 q.1 q.2
      have hnotin : ∀ p ∈ rest, p.1 ≠ k := by
        intro p hp hpk
        exact hq (by rw [hk, ← hpk]; exact List.mem_map_of_mem Prod.fst hp)
      rw [dictGet_foldl_insert_not_mem k rest (dictInsert d0 q) hnotin, hins]
      simp [dictGet, hk]
    · have hins : dictGet (dictInsert d0 q) k = some w :=
        (dictGet_dictInsert_other d0 k q.1 q.2 hk).trans h0
      rw [ih (dictInsert d0 q) hrest hins]
      simp [dictGet, hk]

/-- C9: in the payload `{"type": "ALERT", **data}`, the event's own
pairs are merged after the literal `"type" ↦ "ALERT"` entry with
dict-update semantics, so when the deserialized event itself carries a
`"type"` key the broadcast message holds the event's value for it; only
an event without a `"type"` field is pushed with `"ALERT"`. -/
theorem C9_event_type_overrides_alert (data : EventData)
    (hnd : (data.map Prod.fst).Nodup) :
    dictGet (mergePayload data) "type" =
      some ((dictGet data "type").getD (Val.str "ALERT")) := by
  unfold mergePayload
  exact dictGet_foldl_insert "type" (Val.str "ALERT") data
    [("type", Val.str "ALERT")] hnd (by decide)

/-- Witness for `C9_event_type_overrides_alert` on an event that itself
carries `"type" ↦ "INFO"`: the broadcast payload's `"type"` is the
event's `"INFO"`, not `"ALERT"`. -/
theorem C9_event_type_overrides_alert_witness :
    ((([("type", Val.str "INFO")] : EventData).map Prod.fst).Nodup) ∧
    dictGet (mergePayload [("type", Val.str "INFO")]) "type" =
      some ((dictGet [("type", Val.str "INFO")] "type").getD (Val.str "ALERT")) :=
  ⟨by decide, C9_event_type_overrides_alert [("type", Val.str "INFO")] (by decide)⟩

/-! ## Claim C10: no field validation before the insert -/

/-- C10: the write step validates nothing — even when any (or every)
required field is missing from a parseable message, the consumer still
performs the insert as its first action on that message, and each
missing field is passed to the store as `NULL` (each of `student_id`,
`status`, `confidence`, `timestamp` is looked up with the defaulting
`data.get`, so absence yields `none` rather than a rejection). -/
theorem C10_missing_fields_inserted_as_null (data : EventData)
    (rest : List (Option EventData))
    (_hmissing : dictGet data "student_id" = none ∨
      dictGet data "status" = none ∨
      dictGet data "confidence" = none ∨
      dictGet data "timestamp" = none) :
    (kafka_consumer_task (some data :: rest)).head? =
      some (Action.write (insertArgs data)) ∧
    (dictGet data "student_id" = none → (insertArgs data).student_id = none) ∧
    (dictGet data "status" = none → (insertArgs data).status = none) ∧
    (dictGet data "confidence" = none → (insertArgs data).confidence = none) ∧
    (dictGet data "timestamp" = none → (insertArgs data).timestamp = none) :=
  ⟨rfl, fun h => h, fun h => h, fun h => h, fun h => h⟩

/-- Witness for `C10_missing_fields_inserted_as_null` on the empty
payload `{}`: every field is missing, yet the message is still written,
with `NULL` in every column. -/
theorem C10_missing_fields_inserted_as_null_witness :
    (dictGet [] "student_id" = none) ∧
    ((kafka_consumer_task [some []]).head? =
        some (Action.write (insertArgs [])) ∧
      (dictGet [] "student_id" = none → (insertArgs []).student_id = none) ∧
      (dictGet [] "status" = none → (insertArgs []).status = none) ∧
      (dictGet [] "confidence" = none → (insertArgs []).confidence = none) ∧
      (dictGet [] "timestamp" = none → (insertArgs []).timestamp = none)) :=
  ⟨rfl, C10_missing_fields_inserted_as_null [] [] (Or.inl rfl)⟩

end CAMS
